import Mathlib

/-!
Verification of `src/helper/geojsonify.js` (pelias-api geojsonify helper).

The module converts place-search result documents into a GeoJSON
FeatureCollection.  External collaborators (the gid decoder, the
pelias-model `Document` gid builder, the detail collector, the string
field normalizer, the addendum codec, the iso3166 lookup and the
`@mapbox/geojson-extent` library) are not part of this repository's
source tree; they are modelled as components of an `Env` record, with
their contracts taken from the specification.  Coordinates are modelled
as rationals; JavaScript dynamic values as the inductive `JVal`.
-/

namespace Geojsonify

/-- A JavaScript value, as far as this pipeline inspects values:
`undefined` is represented by `Option.none` at use sites. -/
inductive JVal where
  | null
  | bool (b : Bool)
  | num (q : Rat)
  | str (s : String)
  | arr (xs : List JVal)
  | obj (fields : List (String × JVal))
deriving Repr

/-- JavaScript truthiness of a defined value: `null`, `false`, `0` and
the empty string are falsy; objects and arrays are always truthy. -/
def jvalTruthy : JVal → Bool
  | .null => false
  | .bool b => b
  | .num q => q ≠ 0
  | .str s => s ≠ ""
  | .arr _ => true
  | .obj _ => true

/-- JavaScript truthiness lifted to possibly-undefined values:
`a || b` keeps `a` exactly when `truthyOpt a` is `some`. -/
def truthyOpt : Option JVal → Option JVal
  | some v => if jvalTruthy v then some v else none
  | none => none

/-- A `bounding_box` value: four numeric edges. -/
structure BoundingBox where
  min_lon : Rat
  min_lat : Rat
  max_lon : Rat
  max_lat : Rat
deriving Repr, DecidableEq

/-- A document's `center_point` (`lat`/`lon`, already numeric in the model;
`parseFloat` of a numeric string is collapsed into the value). -/
structure CenterPoint where
  lat : Rat
  lon : Rat
deriving Repr, DecidableEq

/-- A raw input document (Elasticsearch hit).  Optional fields are
`Option`; `name_default` models presence of the `name.default` path. -/
structure RawDocument where
  _id : String
  source : String
  layer : String
  center_point : Option CenterPoint
  bounding_box : Option BoundingBox
  name_default : Option JVal
  addendum : Option (List (String × String))
  debug : Option JVal
deriving Repr

/-- Modelled from the spec: the Identifier Resolver's output,
`(compoundId: string) -> {source, layer, id}` (`decode_gid` is not under
`src/`). -/
structure GidComponents where
  source : String
  layer : String
  id : String
deriving Repr, DecidableEq

/-- An extent point, `{lng, lat}`, used only for the collection bbox. -/
structure ExtentPoint where
  lng : Rat
  lat : Rat
deriving Repr, DecidableEq

/-- Configuration object; only forwarded to the detail collector. -/
structure Params where
  clean : List (String × JVal)
deriving Repr

/-- The external collaborators of the helper, with contracts modelled
from the spec (none of their sources are under `src/`):
`decodeGid` is `decode_gid`, `buildGid` is
`new Document(source, layer, id).getGid()`, `collectDetails` is the
detail collector (its contract is to avoid the reserved core keys, so
its output is kept in a separate `details` field), `getStringValue` is
the string field normalizer, `codecDecode` is the addendum codec (throw
modelled as `Except.error`), `isoInfo` is `iso3166.info` followed by the
`alpha2` lookup (`none` = no info object, `some none` = info without an
`alpha2` string), and `extentLib` is `@mapbox/geojson-extent` applied to
the parsed extent points (throw modelled as `Except.error`, a falsy
result as `Except.ok none`). -/
structure Env where
  decodeGid : String → GidComponents
  buildGid : String → String → String → String
  collectDetails : Params → RawDocument → List (String × JVal)
  getStringValue : JVal → Option String
  codecDecode : String → Except String JVal
  isoInfo : String → Option (Option String)
  extentLib : List ExtentPoint → Except String (Option (List Rat))

/-- The flat record built by `geojsonifyPlace`; it becomes the feature
properties. -/
structure PlaceRecord where
  id : String
  gid : String
  layer : String
  source : String
  source_id : String
  country_code : Option String
  bounding_box : Option BoundingBox
  lat : Rat
  lng : Rat
  name : Option String
  details : List (String × JVal)
  addendum : Option (List (String × JVal))
  debug : Option JVal
deriving Repr

/-- A GeoJSON feature: Point geometry with coordinates `[lng, lat]`,
the place record as properties, and an optional top-level `bbox`. -/
structure Feature where
  geometry : List Rat
  properties : PlaceRecord
  bbox : Option (List Rat)
deriving Repr

/-- The output feature collection. -/
structure FeatureCollection where
  features : List Feature
  bbox : Option (List Rat)
deriving Repr

/-- `geojsonifyPlace(params, place)`: build the flat record for one
document.  Follows the source line by line; the caller guarantees a
center point, so a missing one defaults (the JS code would throw there,
but it is unreachable through `geojsonifyPlaces`). -/
def geojsonifyPlace (env : Env) (params : Params) (place : RawDocument) : PlaceRecord :=
  let gid_components := env.decodeGid place._id
  { id := gid_components.id
    gid := env.buildGid place.source place.layer gid_components.id
    layer := place.layer
    source := place.source
    source_id := gid_components.id
    country_code := none
    bounding_box := place.bounding_box
    lat := (place.center_point.getD ⟨0, 0⟩).lat
    lng := (place.center_point.getD ⟨0, 0⟩).lon
    -- assigned when `name.default` exists (else only a warning is logged)
    name := place.name_default.bind env.getStringValue
    -- Object.assign(doc, collectDetails(params, place)); the collector's
    -- contract keeps it off the core keys, so it lands in its own field
    details := env.collectDetails params place
    -- decode each addendum namespace, dropping the ones that throw;
    -- attach only when at least one namespace survived
    addendum :=
      match place.addendum with
      | some entries =>
        let addendum := entries.foldl (fun acc p =>
          match env.codecDecode p.2 with
          | .ok v => acc ++ [(p.1, v)]
          | .error _ => acc) []
        if addendum.isEmpty then none else some addendum
      | none => none
    -- if (place.debug) doc.debug = place.debug
    debug :=
      match place.debug with
      | some v => if jvalTruthy v then some v else none
      | none => none }

/-- Modelled from the spec: the external GeoJSON library's
`GeoJSON.parse(geodata, \x7b Point: ['lat', 'lng'] \x7d)` builds one
Point-geometry feature per record with coordinates `[lng, lat]` and
properties equal to the record. -/
def toFeature (record : PlaceRecord) : Feature :=
  { geometry := [record.lng, record.lat], properties := record, bbox := none }

/-- Modelled from the spec: `GeoJSON.parse` over the whole record list. -/
def geojsonParse (records : List PlaceRecord) : FeatureCollection :=
  { features := records.map toFeature, bbox := none }

/-- The body of the `forEach` in `addBBoxPerFeature`: promote a truthy
`properties.bounding_box` to the feature's top-level `bbox`, then delete
`bounding_box` from the properties unconditionally. -/
def addBBoxPerFeatureOne (feature : Feature) : Feature :=
  let f :=
    match feature.properties.bounding_box with
    | some bb =>
      { feature with bbox := some [bb.min_lon, bb.min_lat, bb.max_lon, bb.max_lat] }
    | none => feature
  { f with properties := { f.properties with bounding_box := none } }

/-- `addBBoxPerFeature(geojson)`. -/
def addBBoxPerFeature (geojson : FeatureCollection) : FeatureCollection :=
  { geojson with features := geojson.features.map addBBoxPerFeatureOne }

/-- `_.get(details, key)`: first binding of the key, if any. -/
def lodashGet (details : List (String × JVal)) (key : String) : Option JVal :=
  (details.find? (fun p => p.1 = key)).map (·.2)

/-- The `let code = _.get(feature, 'properties.country_a') ||
_.get(feature, 'properties.dependency_a') || ''` line: `properties.country_a`,
falling back to `properties.dependency_a` on a falsy value, falling back
to the empty string. -/
def countryCodeSource (record : PlaceRecord) : JVal :=
  match truthyOpt (lodashGet record.details "country_a") with
  | some v => v
  | none =>
    match truthyOpt (lodashGet record.details "dependency_a") with
    | some v => v
    | none => JVal.str ""

/-- The body of the `forEach` in `addISO3166PropsPerFeature`:
bail out unless the code is a non-empty string; look it up; set
`properties.country_code` only when the info has a two-character
`alpha2` string. -/
def addISO3166PropsOne (env : Env) (feature : Feature) : Feature :=
  match countryCodeSource feature.properties with
  | JVal.str s =>
    if s = "" then feature
    else
      match env.isoInfo s with
      | some (some alpha2) =>
        if alpha2.length = 2 then
          { feature with properties := { feature.properties with country_code := some alpha2 } }
        else feature
      | _ => feature
  | _ => feature

/-- `addISO3166PropsPerFeature(geojson)`. -/
def addISO3166PropsPerFeature (env : Env) (geojson : FeatureCollection) : FeatureCollection :=
  { geojson with features := geojson.features.map (addISO3166PropsOne env) }

/-- `extractExtentPoints(geodata)`: a truthy `bounding_box` contributes
its lower-left and upper-right corners, anything else its single
`(lng, lat)` point. -/
def extractExtentPoints (geodata : List PlaceRecord) : List ExtentPoint :=
  geodata.foldl (fun extentPoints place =>
    match place.bounding_box with
    | some bb =>
      extentPoints ++ [⟨bb.min_lon, bb.min_lat⟩, ⟨bb.max_lon, bb.max_lat⟩]
    | none => extentPoints ++ [⟨place.lng, place.lat⟩]) []

/-- The contribution of a single record to the extent-point sequence:
two opposite corners when it carries a `bounding_box`, its single
`(lng, lat)` point otherwise.  Used to characterize
`extractExtentPoints`. -/
def recordExtentPoints (place : PlaceRecord) : List ExtentPoint :=
  match place.bounding_box with
  | some bb => [⟨bb.min_lon, bb.min_lat⟩, ⟨bb.max_lon, bb.max_lat⟩]
  | none => [⟨place.lng, place.lat⟩]

/-- `computeBBox(geojson, geojsonExtentPoints)`: the extent library may
throw (caught and logged, the collection is left untouched) or return a
falsy value (the `!!bbox` guard skips the assignment). -/
def computeBBox (env : Env) (geojson : FeatureCollection)
    (geojsonExtentPoints : List ExtentPoint) : FeatureCollection :=
  match env.extentLib geojsonExtentPoints with
  | .ok (some bbox) => { geojson with bbox := some bbox }
  | .ok none => geojson
  | .error _ => geojson

/-- `geojsonifyPlaces(params, docs)`: the exported entry point.  Filter
out documents without a `center_point` (one warning per drop), map the
survivors through `geojsonifyPlace`, encode geometry, promote per-feature
bboxes, annotate country codes and compute the collection bbox. -/
def geojsonifyPlaces (env : Env) (params : Params) (docs : List RawDocument) : FeatureCollection :=
  let geodata := (docs.filter (fun doc => doc.center_point.isSome)).map (geojsonifyPlace env params)
  let extentPoints := extractExtentPoints geodata
  let geojson := geojsonParse geodata
  let geojson := addBBoxPerFeature geojson
  let geojson := addISO3166PropsPerFeature env geojson
  computeBBox env geojson extentPoints

/-! Concrete collaborators and documents used to evaluate the pipeline
on closed inputs. -/

/-- A concrete, fully computable environment.  Its gid decoder always
yields `osm/venue/42`, its codec only decodes the blob `"good"`, its
iso3166 table only knows `GBR ↦ GB`, and its extent library fails on an
empty point list and returns a falsy result otherwise. -/
def envC : Env :=
  { decodeGid := fun _ => ⟨"osm", "venue", "42"⟩
    buildGid := fun source layer id => source ++ ":" ++ layer ++ ":" ++ id
    collectDetails := fun _ _ => []
    getStringValue := fun v => match v with | .str s => some s | _ => none
    codecDecode := fun blob => if blob = "good" then .ok (.str "decoded") else .error "bad blob"
    isoInfo := fun code => if code = "GBR" then some (some "GB") else none
    extentLib := fun pts => if pts.isEmpty then .error "degenerate extent" else .ok none }

/-- Empty configuration. -/
def paramsC : Params := { clean := [] }

/-- A well-formed document whose `source`/`layer` disagree with what the
gid decoder of `envC` reports for its `_id`. -/
def placeC7 : RawDocument :=
  { _id := "geonames:address:99", source := "geonames", layer := "address"
    center_point := some ⟨1, 2⟩, bounding_box := none
    name_default := none, addendum := none, debug := none }

/-- A document whose `debug` field exists but is falsy. -/
def placeC8 : RawDocument :=
  { placeC7 with debug := some (JVal.bool false) }

/-- A document whose `debug` field exists and is truthy. -/
def placeC8t : RawDocument :=
  { placeC7 with debug := some (JVal.str "on") }

/-- A document with a mixed addendum: namespace `a` decodes under
`envC`, namespace `b` does not. -/
def placeC3 : RawDocument :=
  { placeC7 with addendum := some [("a", "good"), ("b", "bad")] }

/-- A document carrying a `bounding_box`. -/
def placeBB : RawDocument :=
  { placeC7 with bounding_box := some ⟨1, 2, 3, 4⟩, center_point := some ⟨5, 6⟩ }

/-! Helper lemmas. -/

/-- `computeBBox` never touches the feature list. -/
theorem computeBBox_features (env : Env) (geojson : FeatureCollection)
    (points : List ExtentPoint) : (computeBBox env geojson points).features = geojson.features := by
  unfold computeBBox
  cases env.extentLib points with
  | ok b => cases b <;> rfl
  | error e => rfl

/-- The feature list of the final collection: each surviving document is
mapped through the transformer, geometry encoding, bbox promotion and
country-code annotation, in order. -/
theorem geojsonifyPlaces_features (env : Env) (params : Params) (docs : List RawDocument) :
    (geojsonifyPlaces env params docs).features =
      (docs.filter (fun doc => doc.center_point.isSome)).map
        (fun doc => addISO3166PropsOne env (addBBoxPerFeatureOne (toFeature (geojsonifyPlace env params doc)))) := by
  unfold geojsonifyPlaces
  rw [computeBBox_features]
  simp [addISO3166PropsPerFeature, addBBoxPerFeature, geojsonParse, List.map_map, Function.comp_def]

/-- The surviving and the dropped documents partition the input. -/
theorem kept_add_dropped (docs : List RawDocument) :
    (docs.filter (fun doc => doc.center_point.isSome)).length +
      (docs.filter (fun doc => !doc.center_point.isSome)).length = docs.length := by
  induction docs with
  | nil => rfl
  | cons d l ih =>
    cases h : d.center_point <;> simp [List.filter_cons, h] at ih ⊢ <;> omega

/-- `computeBBox` leaves the collection bbox alone when the extent
library throws. -/
theorem computeBBox_bbox_error (env : Env) (geojson : FeatureCollection)
    (points : List ExtentPoint) (e : String) (h : env.extentLib points = Except.error e) :
    (computeBBox env geojson points).bbox = geojson.bbox := by
  unfold computeBBox
  rw [h]

/-- Bbox promotion always clears `properties.bounding_box`. -/
theorem addBBoxPerFeatureOne_bounding_box (feature : Feature) :
    (addBBoxPerFeatureOne feature).properties.bounding_box = none := by
  unfold addBBoxPerFeatureOne
  cases feature.properties.bounding_box <;> rfl

/-- Bbox promotion copies a present `bounding_box` to the top-level
`bbox` in `[min_lon, min_lat, max_lon, max_lat]` order. -/
theorem addBBoxPerFeatureOne_bbox_of_some (feature : Feature) (bb : BoundingBox)
    (h : feature.properties.bounding_box = some bb) :
    (addBBoxPerFeatureOne feature).bbox =
      some [bb.min_lon, bb.min_lat, bb.max_lon, bb.max_lat] := by
  unfold addBBoxPerFeatureOne
  rw [h]

/-- Country-code annotation only ever rewrites the `country_code` field. -/
theorem addISO3166PropsOne_frame (env : Env) (feature : Feature) :
    ∃ cc, addISO3166PropsOne env feature =
      { feature with properties := { feature.properties with country_code := cc } } := by
  unfold addISO3166PropsOne
  repeat' split
  all_goals exact ⟨_, rfl⟩

/-- Country-code annotation preserves the top-level `bbox`. -/
theorem addISO3166PropsOne_bbox (env : Env) (feature : Feature) :
    (addISO3166PropsOne env feature).bbox = feature.bbox := by
  obtain ⟨cc, h⟩ := addISO3166PropsOne_frame env feature
  rw [h]

/-- Country-code annotation preserves `properties.bounding_box`. -/
theorem addISO3166PropsOne_bounding_box (env : Env) (feature : Feature) :
    (addISO3166PropsOne env feature).properties.bounding_box =
      feature.properties.bounding_box := by
  obtain ⟨cc, h⟩ := addISO3166PropsOne_frame env feature
  rw [h]

/-- The `debug` field of the transformed record: copied only when
truthy. -/
theorem geojsonifyPlace_debug (env : Env) (params : Params) (place : RawDocument) :
    (geojsonifyPlace env params place).debug =
      match place.debug with
      | some v => if jvalTruthy v then some v else none
      | none => none := rfl

/-- The `addendum` field of the transformed record. -/
theorem geojsonifyPlace_addendum (env : Env) (params : Params) (place : RawDocument) :
    (geojsonifyPlace env params place).addendum =
      match place.addendum with
      | some entries =>
        let addendum := entries.foldl (fun acc p =>
          match env.codecDecode p.2 with
          | .ok v => acc ++ [(p.1, v)]
          | .error _ => acc) []
        if addendum.isEmpty then none else some addendum
      | none => none := rfl

/-- The identifier-derived fields of the transformed record. -/
theorem geojsonifyPlace_ids (env : Env) (params : Params) (place : RawDocument) :
    (geojsonifyPlace env params place).id = (env.decodeGid place._id).id ∧
    (geojsonifyPlace env params place).gid =
      env.buildGid place.source place.layer (env.decodeGid place._id).id ∧
    (geojsonifyPlace env params place).layer = place.layer ∧
    (geojsonifyPlace env params place).source = place.source ∧
    (geojsonifyPlace env params place).source_id = (env.decodeGid place._id).id :=
  ⟨rfl, rfl, rfl, rfl, rfl⟩

/-- The per-namespace decode loop collects exactly the entries whose
decode succeeds, in order. -/
theorem decode_foldl_eq_filterMap (env : Env) (entries : List (String × String))
    (acc : List (String × JVal)) :
    entries.foldl (fun acc p =>
      match env.codecDecode p.2 with
      | .ok v => acc ++ [(p.1, v)]
      | .error _ => acc) acc =
    acc ++ entries.filterMap (fun p =>
      match env.codecDecode p.2 with
      | .ok v => some (p.1, v)
      | .error _ => none) := by
  induction entries generalizing acc with
  | nil => simp
  | cons p l ih =>
    rw [List.foldl_cons, List.filterMap_cons]
    cases h : env.codecDecode p.2 <;> simp [h, ih]

/-- `extractExtentPoints` with an arbitrary accumulator. -/
theorem extractExtentPoints_foldl (geodata : List PlaceRecord) (acc : List ExtentPoint) :
    geodata.foldl (fun extentPoints place =>
      match place.bounding_box with
      | some bb =>
        extentPoints ++ [⟨bb.min_lon, bb.min_lat⟩, ⟨bb.max_lon, bb.max_lat⟩]
      | none => extentPoints ++ [⟨place.lng, place.lat⟩]) acc =
    acc ++ geodata.flatMap recordExtentPoints := by
  induction geodata generalizing acc with
  | nil => simp
  | cons p l ih =>
    rw [List.foldl_cons, List.flatMap_cons]
    cases h : p.bounding_box <;> simp [h, ih, recordExtentPoints]

/-- `extractExtentPoints` is the concatenation of the per-record
contributions. -/
theorem extractExtentPoints_eq (geodata : List PlaceRecord) :
    extractExtentPoints geodata = geodata.flatMap recordExtentPoints := by
  have h := extractExtentPoints_foldl geodata []
  simpa [extractExtentPoints] using h

/-! Claim theorems. -/

/-- C1: every input document lacking a center point is dropped and
produces no feature; the number of features equals the number of input
documents minus the number of dropped documents, and each feature comes
from a surviving document, in order. -/
theorem assemble_drops_documents_without_center_point (env : Env) (params : Params)
    (docs : List RawDocument) :
    (geojsonifyPlaces env params docs).features.length =
      docs.length - (docs.filter (fun doc => !doc.center_point.isSome)).length ∧
    (geojsonifyPlaces env params docs).features =
      (docs.filter (fun doc => doc.center_point.isSome)).map
        (fun doc => addISO3166PropsOne env (addBBoxPerFeatureOne (toFeature (geojsonifyPlace env params doc)))) := by
  refine ⟨?_, geojsonifyPlaces_features env params docs⟩
  rw [geojsonifyPlaces_features, List.length_map]
  have h := kept_add_dropped docs
  omega

/-- C9: assembly is deterministic — two runs on the same input and
collaborators give the same result — and the features appear in the
order of the surviving input documents. -/
theorem assemble_deterministic_and_order_preserving (env : Env) (params : Params)
    (docs : List RawDocument) :
    geojsonifyPlaces env params docs = geojsonifyPlaces env params docs ∧
    (geojsonifyPlaces env params docs).features =
      (docs.filter (fun doc => doc.center_point.isSome)).map
        (fun doc => addISO3166PropsOne env (addBBoxPerFeatureOne (toFeature (geojsonifyPlace env params doc)))) :=
  ⟨rfl, geojsonifyPlaces_features env params docs⟩

/-- C6: extent-point extraction is the ordered concatenation of the
per-record contributions — two opposite corners for a record with a
`bounding_box`, its single `(lng, lat)` point otherwise — so its length
lies between N and 2N. -/
theorem extract_extent_points_characterization (geodata : List PlaceRecord) :
    extractExtentPoints geodata = geodata.flatMap recordExtentPoints ∧
    geodata.length ≤ (extractExtentPoints geodata).length ∧
    (extractExtentPoints geodata).length ≤ 2 * geodata.length := by
  refine ⟨extractExtentPoints_eq geodata, ?_⟩
  rw [extractExtentPoints_eq]
  induction geodata with
  | nil => simp
  | cons p l ih =>
    rw [List.flatMap_cons]
    cases h : p.bounding_box <;> simp [recordExtentPoints, h] at ih ⊢ <;> omega

/-- C7 counterexample: the output `layer` and `source` do not come from
the resolved identifier — with `envC`'s resolver reporting
`osm/venue/42` for every id, the document `placeC7` (source `geonames`,
layer `address`) keeps its own `layer`/`source`. -/
theorem identifier_seeding_counterexample :
    (geojsonifyPlace envC paramsC placeC7).layer ≠ (envC.decodeGid placeC7._id).layer ∧
    (geojsonifyPlace envC paramsC placeC7).source ≠ (envC.decodeGid placeC7._id).source ∧
    (geojsonifyPlace envC paramsC placeC7).layer = "address" ∧
    (envC.decodeGid placeC7._id).layer = "venue" := by
  refine ⟨?_, ?_, rfl, rfl⟩ <;> decide

/-- C7 (amended): the local id resolved from `rawDocument._id` seeds
`id` and `source_id`, and the gid is built from the document's own
`source` and `layer` together with the resolved local id; the output
`layer` and `source` come from the document itself, not from the
resolver. -/
theorem identifier_seeding (env : Env) (params : Params) (place : RawDocument) :
    (geojsonifyPlace env params place).id = (env.decodeGid place._id).id ∧
    (geojsonifyPlace env params place).source_id = (env.decodeGid place._id).id ∧
    (geojsonifyPlace env params place).gid =
      env.buildGid place.source place.layer (env.decodeGid place._id).id ∧
    (geojsonifyPlace env params place).layer = place.layer ∧
    (geojsonifyPlace env params place).source = place.source :=
  ⟨rfl, rfl, rfl, rfl, rfl⟩

/-- C8 counterexample: a document whose `debug` field exists but is
falsy (`false`) is not copied through — the output has no `debug`. -/
theorem debug_falsy_not_copied :
    placeC8.debug = some (JVal.bool false) ∧
    (geojsonifyPlace envC paramsC placeC8).debug = none :=
  ⟨rfl, rfl⟩

/-- C8 (amended): for every document on which `debug` exists, the value
is copied through verbatim exactly when it is truthy; a falsy `debug`
value is not copied. -/
theorem debug_copied_iff_truthy (env : Env) (params : Params) (place : RawDocument)
    (v : JVal) (h : place.debug = some v) :
    (geojsonifyPlace env params place).debug =
      if jvalTruthy v then some v else none := by
  rw [geojsonifyPlace_debug, h]

/-- Witness for the amended C8 theorem: a truthy `debug` value is copied
verbatim. -/
theorem debug_copied_iff_truthy_witness :
    (geojsonifyPlace envC paramsC placeC8t).debug = some (JVal.str "on") := by
  have h := debug_copied_iff_truthy envC paramsC placeC8t (JVal.str "on") rfl
  simpa [jvalTruthy] using h

/-- C2: a feature whose properties carry a `bounding_box` before the
per-feature promotion ends up, after assembly, with a top-level `bbox`
equal to `[min_lon, min_lat, max_lon, max_lat]`, and no feature of the
final output has `bounding_box` left in its properties. -/
theorem per_feature_bbox_promotion (env : Env) (params : Params) (docs : List RawDocument)
    (i : Nat) (f : Feature) (bb : BoundingBox)
    (hf : ((docs.filter (fun doc => doc.center_point.isSome)).map
        (fun doc => toFeature (geojsonifyPlace env params doc)))[i]? = some f)
    (hbb : f.properties.bounding_box = some bb) :
    (∃ g, (geojsonifyPlaces env params docs).features[i]? = some g ∧
        g.bbox = some [bb.min_lon, bb.min_lat, bb.max_lon, bb.max_lat] ∧
        g.properties.bounding_box = none) ∧
    ∀ g ∈ (geojsonifyPlaces env params docs).features, g.properties.bounding_box = none := by
  have hfeat := geojsonifyPlaces_features env params docs
  constructor
  · rw [hfeat, List.getElem?_map]
    rw [List.getElem?_map] at hf
    cases hd : (docs.filter (fun doc => doc.center_point.isSome))[i]? with
    | none => rw [hd] at hf; simp at hf
    | some d =>
      rw [hd] at hf
      simp only [Option.map_some', Option.some.injEq] at hf
      refine ⟨addISO3166PropsOne env (addBBoxPerFeatureOne (toFeature (geojsonifyPlace env params d))),
        rfl, ?_, ?_⟩
      · rw [addISO3166PropsOne_bbox, hf, addBBoxPerFeatureOne_bbox_of_some f bb hbb]
      · rw [addISO3166PropsOne_bounding_box, addBBoxPerFeatureOne_bounding_box]
  · rw [hfeat]
    intro g hg
    obtain ⟨d, hd, rfl⟩ := List.mem_map.mp hg
    rw [addISO3166PropsOne_bounding_box, addBBoxPerFeatureOne_bounding_box]

/-- Witness for the C2 theorem: one document with bounding box
`(1, 2) – (3, 4)` yields a feature with `bbox = [1, 2, 3, 4]` and no
`bounding_box` in its properties. -/
theorem per_feature_bbox_promotion_witness :
    ∃ g, (geojsonifyPlaces envC paramsC [placeBB]).features[0]? = some g ∧
      g.bbox = some [(1 : Rat), 2, 3, 4] ∧
      g.properties.bounding_box = none := by
  have h := per_feature_bbox_promotion envC paramsC [placeBB] 0
    (toFeature (geojsonifyPlace envC paramsC placeBB)) ⟨1, 2, 3, 4⟩ rfl rfl
  exact h.1

/-- C3: per-namespace addendum decoding keeps exactly the namespaces
that decode, in order, and attaches the `addendum` key only when at
least one namespace survived; a fully-failing addendum yields no
`addendum` key, and nothing is thrown. -/
theorem addendum_partial_decode (env : Env) (params : Params) (place : RawDocument)
    (entries : List (String × String)) (h : place.addendum = some entries) :
    (geojsonifyPlace env params place).addendum =
      (let decoded := entries.filterMap (fun p =>
          match env.codecDecode p.2 with
          | .ok v => some (p.1, v)
          | .error _ => none)
       if decoded.isEmpty then none else some decoded) := by
  rw [geojsonifyPlace_addendum, h]
  dsimp only
  rw [decode_foldl_eq_filterMap]
  simp

/-- Witness for the C3 theorem: under `envC`, the mixed addendum
`{a: "good", b: "bad"}` of `placeC3` yields exactly namespace `a`. -/
theorem addendum_partial_decode_witness :
    (geojsonifyPlace envC paramsC placeC3).addendum = some [("a", JVal.str "decoded")] := by
  have h := addendum_partial_decode envC paramsC placeC3 [("a", "good"), ("b", "bad")] rfl
  simpa [envC] using h

/-- C4: after country-code annotation, `country_code` is set exactly
when the `country_a`/`dependency_a`/empty-string fallback chain yields a
non-empty string that the normalizer resolves to a two-character
`alpha2` code; in every other case the feature is left untouched. -/
theorem country_code_annotation (env : Env) (f : Feature) :
    (∃ s a, countryCodeSource f.properties = JVal.str s ∧ s ≠ "" ∧
        env.isoInfo s = some (some a) ∧ a.length = 2 ∧
        addISO3166PropsOne env f =
          { f with properties := { f.properties with country_code := some a } }) ∨
    ((¬ ∃ s a, countryCodeSource f.properties = JVal.str s ∧ s ≠ "" ∧
        env.isoInfo s = some (some a) ∧ a.length = 2) ∧
      addISO3166PropsOne env f = f) := by
  by_cases hx : ∃ s a, countryCodeSource f.properties = JVal.str s ∧ s ≠ "" ∧
      env.isoInfo s = some (some a) ∧ a.length = 2
  · left
    obtain ⟨s, a, h1, h2, h3, h4⟩ := hx
    refine ⟨s, a, h1, h2, h3, h4, ?_⟩
    unfold addISO3166PropsOne
    rw [h1]
    simp [h2, h3, h4]
  · right
    refine ⟨hx, ?_⟩
    push_neg at hx
    unfold addISO3166PropsOne
    cases hc : countryCodeSource f.properties with
    | str s =>
      by_cases hs : s = ""
      · simp [hs]
      · cases hinfo : env.isoInfo s with
        | none => simp [hs, hinfo]
        | some o =>
          cases o with
          | none => simp [hs, hinfo]
          | some a =>
            have hlen : a.length ≠ 2 := hx s a hc hs hinfo
            simp [hs, hinfo, hlen]
    | null => rfl
    | bool b => rfl
    | num q => rfl
    | arr xs => rfl
    | obj fields => rfl

/-- C5: when the extent library fails on the collected extent points,
the assembled collection simply has no top-level `bbox`, the features
are untouched, and `geojsonifyPlaces` still returns normally. -/
theorem collection_bbox_failure_is_nonfatal (env : Env) (params : Params)
    (docs : List RawDocument) (e : String)
    (h : env.extentLib (extractExtentPoints
        ((docs.filter (fun doc => doc.center_point.isSome)).map (geojsonifyPlace env params))) =
      Except.error e) :
    (geojsonifyPlaces env params docs).bbox = none ∧
    (geojsonifyPlaces env params docs).features =
      (docs.filter (fun doc => doc.center_point.isSome)).map
        (fun doc => addISO3166PropsOne env (addBBoxPerFeatureOne (toFeature (geojsonifyPlace env params doc)))) := by
  refine ⟨?_, geojsonifyPlaces_features env params docs⟩
  show (computeBBox env
      (addISO3166PropsPerFeature env (addBBoxPerFeature (geojsonParse
        ((docs.filter (fun doc => doc.center_point.isSome)).map (geojsonifyPlace env params)))))
      (extractExtentPoints
        ((docs.filter (fun doc => doc.center_point.isSome)).map (geojsonifyPlace env params)))).bbox = none
  rw [computeBBox_bbox_error _ _ _ e h]
  rfl

/-- Witness for the C5 theorem: `envC`'s extent library fails on the
empty point sequence, so an empty input assembles to a collection with
no `bbox` and no features, without throwing. -/
theorem collection_bbox_failure_is_nonfatal_witness :
    (geojsonifyPlaces envC paramsC []).bbox = none ∧
    (geojsonifyPlaces envC paramsC []).features = [] := by
  have h := collection_bbox_failure_is_nonfatal envC paramsC [] "degenerate extent" rfl
  exact ⟨h.1, h.2⟩

/-- C10: country-code annotation modifies at most
`properties.country_code` — all other properties, the geometry and the
top-level `bbox` of the feature are unchanged. -/
theorem country_code_annotation_frame (env : Env) (f : Feature) :
    ∃ cc, addISO3166PropsOne env f =
        { f with properties := { f.properties with country_code := cc } } ∧
      (addISO3166PropsOne env f).geometry = f.geometry ∧
      (addISO3166PropsOne env f).bbox = f.bbox ∧
      (addISO3166PropsOne env f).properties.details = f.properties.details := by
  obtain ⟨cc, h⟩ := addISO3166PropsOne_frame env f
  exact ⟨cc, h, by rw [h], by rw [h], by rw [h]⟩

end Geojsonify
